import Mathlib

/-!
Verification of the SmartIDS flow-reconstruction and feature-engineering core
(`ids_data_collector.py`), shallowly embedded in Lean 4.

Modelling conventions:
* Timestamps and durations are rationals (`ℚ`); `datetime.now()` is passed as
  an explicit `now` argument wherever the Python calls it.
* Python floats are modelled as exact rationals; integer counters are `Nat`.
* The Python `dict` of active connections is an insertion-ordered association
  list (Python dicts preserve insertion order); `defaultdict(list)` for the
  per-host index is a total function defaulting to `[]`.
* The `deque(maxlen=10000)` history is a list with `pushBounded`, which drops
  the oldest element when the capacity is reached.
* External effects (packet capture, the ML predictor, the dashboard push,
  printing, CSV output) are outside the verified core, exactly as the spec
  scopes them out; the feature-record fields they would add (`class`,
  `confidence`, `traffic_source`) are omitted from the record.
-/

/-- Accumulated TCP control flags of a connection (`conn_data['flags']`,
a Python `set` over `{S, A, F, R, P, U}`). -/
structure FlagSet where
  s : Bool
  a : Bool
  f : Bool
  r : Bool
  p : Bool
  u : Bool
  deriving DecidableEq, Repr

/-- The empty flag set (`set()` at connection creation). -/
def FlagSet.empty : FlagSet := ⟨false, false, false, false, false, false⟩

/-- Identity of a flow (`ConnectionKey`). Ports are `Option Nat` because ICMP
packets carry no ports (`None` in the Python). -/
structure ConnectionKey where
  src_ip : String
  dst_ip : String
  src_port : Option Nat
  dst_port : Option Nat
  protocol : String
  deriving DecidableEq, Repr

/-- Mutable per-flow accumulator dict (`ConnectionState`) created in
`packet_callback` for an unseen key. -/
structure ConnState where
  start_time : ℚ
  src_bytes : Nat
  dst_bytes : Nat
  src_packets : Nat
  dst_packets : Nat
  flags : FlagSet
  urgent : Nat
  wrong_fragment : Nat
  land : Nat
  service : String
  deriving DecidableEq, Repr

/-- A completed-flow summary stored in `connection_history` and in the
per-host index (`conn_history_entry`, lines 906-915). -/
structure HistEntry where
  time : ℚ
  src_ip : String
  dst_ip : String
  src_port : Option Nat
  dst_port : Option Nat
  protocol : String
  service : String
  flags : FlagSet
  deriving DecidableEq, Repr

/-- The feature record built by `_complete_connection` (lines 777-876).
Content-based KDD fields that the collector fixes at 0 are kept as literal
zeros in `buildRecord`; the externally supplied `class`/`confidence`/
`traffic_source` fields are out of the verified core's scope. -/
structure FeatureRecord where
  duration : ℚ
  protocol_type : String
  service : String
  flag : String
  src_bytes : Nat
  dst_bytes : Nat
  land : Nat
  wrong_fragment : Nat
  urgent : Nat
  hot : Nat
  num_failed_logins : Nat
  logged_in : Nat
  count : Nat
  srv_count : Nat
  src_port : Option Nat
  dst_port : Option Nat
  serror_rate : ℚ
  rerror_rate : ℚ
  same_srv_rate : ℚ
  diff_srv_rate : ℚ
  srv_serror_rate : ℚ
  srv_rerror_rate : ℚ
  srv_diff_host_rate : ℚ
  dst_host_count : Nat
  dst_host_srv_count : Nat
  dst_host_same_srv_rate : ℚ
  dst_host_diff_srv_rate : ℚ
  dst_host_same_src_port_rate : ℚ
  dst_host_serror_rate : ℚ
  dst_host_rerror_rate : ℚ
  dst_host_srv_serror_rate : ℚ
  dst_host_srv_rerror_rate : ℚ
  dst_host_srv_diff_host_rate : ℚ
  deriving DecidableEq, Repr

/-- Result of `_get_recent_connections`: the `{'same_host': [...],
'same_service': [...]}` dict. -/
structure RecentConns where
  same_host : List HistEntry
  same_service : List HistEntry
  deriving DecidableEq, Repr

/-- Transport layer of a captured packet, as classified by `packet_callback`
(TCP with its flags bitmask, UDP with ports, ICMP with no ports). -/
inductive Transport where
  | tcp (sport dport : Nat) (flags : Nat)
  | udp (sport dport : Nat)
  | icmp
  deriving DecidableEq, Repr

/-- A parsed captured packet: `hasIP` is `IP in packet`; `transport = none`
models an IP packet with an unsupported transport (ignored); `ip_flags` and
`ip_frag` are the IP header flags field (MF=1, DF=2, evil=4) and fragment
offset; `length` is `len(packet)`. -/
structure Packet where
  hasIP : Bool
  src_ip : String
  dst_ip : String
  transport : Option Transport
  length : Nat
  ip_flags : Nat
  ip_frag : Nat
  deriving DecidableEq, Repr

/-- The collector state touched by the verified core: the active-connections
table (insertion-ordered, like a Python dict), the output sequence, the
bounded history, the per-host index, and the query window size. -/
structure CollectorState where
  active_connections : List (ConnectionKey × ConnState)
  completed_connections : List FeatureRecord
  connection_history : List HistEntry
  host_connections : String → List HistEntry
  window_size : ℚ

/-- Initial state (`IDSDataCollector.__init__`): empty tables, `deque(maxlen=10000)` history,
`defaultdict(list)` host index. -/
def initState (window_size : ℚ) : CollectorState :=
  { active_connections := []
    completed_connections := []
    connection_history := []
    host_connections := fun _ => []
    window_size := window_size }

/-- Static port-to-service table (from the service-map builder method). -/
def service_map : List (Nat × String) :=
  [(21, "ftp"), (20, "ftp_data"), (22, "ssh"), (23, "telnet"), (25, "smtp"),
   (53, "domain"), (67, "domain_u"), (68, "domain_u"), (69, "tftp_u"),
   (70, "gopher"), (79, "finger"), (80, "http"), (88, "kerberos"),
   (109, "pop_2"), (110, "pop_3"), (113, "auth"), (119, "nntp"),
   (123, "ntp_u"), (137, "netbios_ns"), (138, "netbios_dgm"),
   (139, "netbios_ssn"), (143, "imap4"), (161, "snmp"), (162, "snmp"),
   (179, "bgp"), (389, "ldap"), (443, "http_443"), (445, "microsoft-ds"),
   (465, "smtps"), (514, "shell"), (520, "efs"), (543, "klogin"),
   (544, "kshell"), (993, "imaps"), (995, "pop3s"), (1433, "sql_net"),
   (3306, "mysql"), (5432, "postgresql"), (8001, "http_8001"),
   (8080, "http_proxy"), (8443, "https_proxy"), (6667, "IRC")]

/-- Port-to-service resolution (`_get_service`): `None` maps to `'other'`, otherwise
`service_map.get(port, 'other')`. -/
def get_service (port : Option Nat) : String :=
  match port with
  | none => "other"
  | some p => ((service_map.find? (fun kv => kv.1 == p)).map Prod.snd).getD "other"

/-- Lookup in the active-connections dict (`conn_key in active_connections` /
indexing). -/
def lookupConn (l : List (ConnectionKey × ConnState)) (k : ConnectionKey) :
    Option ConnState :=
  match l with
  | [] => none
  | (k', v) :: rest => if k' = k then some v else lookupConn rest k

/-- In-place mutation of one key's entry (Python dict value update). -/
def updateConn (l : List (ConnectionKey × ConnState)) (k : ConnectionKey)
    (f : ConnState → ConnState) : List (ConnectionKey × ConnState) :=
  l.map (fun kv => if kv.1 = k then (kv.1, f kv.2) else kv)

/-- Deletion from the dict (`del active_connections[conn_key]`). -/
def removeConn (l : List (ConnectionKey × ConnState)) (k : ConnectionKey) :
    List (ConnectionKey × ConnState) :=
  l.filter (fun kv => kv.1 ≠ k)

/-- Append to a `deque(maxlen=cap)`: drops the oldest element when full. -/
def pushBounded (cap : Nat) (h : List HistEntry) (e : HistEntry) :
    List HistEntry :=
  if h.length < cap then h ++ [e] else h.tail ++ [e]

/-- Connection-flag classification (`_get_connection_flag`, lines 747-762): the if/elif chain on the
accumulated flag set, verbatim. -/
def get_connection_flag (conn_data : ConnState) : String :=
  let flags := conn_data.flags
  if flags.s && flags.f then "SF"
  else if flags.s && !(flags.f || flags.r) then "S0"
  else if flags.r then "REJ"
  else if flags.r && flags.s then "RSTO"
  else if flags.s && flags.a then "S1"
  else "OTH"

/-- The connection-flag precedence exactly as the spec enumerates it in §4.2:
six numbered rules evaluated top-to-bottom, first match wins. Written from
the spec's words, to be compared with `get_connection_flag` from the code. -/
def connection_flag_spec (fs : FlagSet) : String :=
  if fs.s = true ∧ fs.f = true then "SF"
  else if fs.s = true ∧ ¬(fs.f = true ∨ fs.r = true) then "S0"
  else if fs.r = true then "REJ"
  else if fs.r = true ∧ fs.s = true then "RSTO"
  else if fs.s = true ∧ fs.a = true then "S1"
  else "OTH"

/-- Window query (`_get_recent_connections`, lines 932-950): one linear scan over
`connection_history`; entries older than `now - window_size` are skipped;
`same_host` collects entries with matching `dst_ip`, `same_service` entries
whose service equals the service resolved from the query's `dst_port`. -/
def get_recent_connections (σ : CollectorState) (dst_ip : String)
    (dst_port : Option Nat) (_protocol : String) (now : ℚ) : RecentConns :=
  let window_start := now - σ.window_size
  { same_host := σ.connection_history.filter
      (fun c => !decide (c.time < window_start) && decide (c.dst_ip = dst_ip))
    same_service := σ.connection_history.filter
      (fun c => !decide (c.time < window_start) &&
        decide (c.service = get_service dst_port)) }

/-- Per-host query (`_get_host_connections`, lines 952-954): `host_connections.get(dst_ip, [])`. -/
def get_host_connections (σ : CollectorState) (dst_ip : String) :
    List HistEntry :=
  σ.host_connections dst_ip

/-- The record-building portion of `_complete_connection` (lines 777-876):
pure feature computation from the flow's own state, the two window query
results, and the per-host query result. All rate denominators are guarded by
`count > 0` branches exactly as in the source, defaulting to `0.0`. -/
def buildRecord (conn_key : ConnectionKey) (conn_data : ConnState)
    (same_host same_service dst_host_conns : List HistEntry)
    (duration : ℚ) : FeatureRecord :=
  let same_host_count := same_host.length
  let same_service_count := same_service.length
  let serror_rate : ℚ := if same_host_count > 0 then
      ((same_host.filter (fun c => c.flags.s && !c.flags.a)).length : ℚ) /
        (same_host_count : ℚ)
    else 0
  let rerror_rate : ℚ := if same_host_count > 0 then
      ((same_host.filter (fun c => c.flags.r)).length : ℚ) /
        (same_host_count : ℚ)
    else 0
  let same_srv_rate : ℚ := if same_host_count > 0 then
      ((same_host.filter (fun c => decide (c.service = conn_data.service))).length : ℚ) /
        (same_host_count : ℚ)
    else 0
  let diff_srv_rate : ℚ := if same_host_count > 0 then 1 - same_srv_rate else 0
  let srv_serror_rate : ℚ := if same_service_count > 0 then
      ((same_service.filter (fun c => c.flags.s && !c.flags.a)).length : ℚ) /
        (same_service_count : ℚ)
    else 0
  let srv_rerror_rate : ℚ := if same_service_count > 0 then
      ((same_service.filter (fun c => c.flags.r)).length : ℚ) /
        (same_service_count : ℚ)
    else 0
  let srv_diff_host_rate : ℚ := if same_service_count > 0 then
      ((same_service.filter (fun c => decide (c.dst_ip ≠ conn_key.dst_ip))).length : ℚ) /
        (same_service_count : ℚ)
    else 0
  let dst_host_count := dst_host_conns.length
  let dst_host_srv_count := if dst_host_count > 0 then
      (dst_host_conns.filter (fun c => decide (c.service = conn_data.service))).length
    else 0
  let dst_host_same_srv_rate : ℚ := if dst_host_count > 0 then
      (dst_host_srv_count : ℚ) / (dst_host_count : ℚ) else 0
  let dst_host_diff_srv_rate : ℚ := if dst_host_count > 0 then
      1 - dst_host_same_srv_rate else 0
  let dst_host_same_src_port_rate : ℚ := if dst_host_count > 0 then
      ((dst_host_conns.filter (fun c => decide (c.src_port = conn_key.src_port))).length : ℚ) /
        (dst_host_count : ℚ)
    else 0
  let dst_host_serror_rate : ℚ := if dst_host_count > 0 then
      ((dst_host_conns.filter (fun c => c.flags.s && !c.flags.a)).length : ℚ) /
        (dst_host_count : ℚ)
    else 0
  let dst_host_rerror_rate : ℚ := if dst_host_count > 0 then
      ((dst_host_conns.filter (fun c => c.flags.r)).length : ℚ) /
        (dst_host_count : ℚ)
    else 0
  let srv_host_conns :=
    dst_host_conns.filter (fun c => decide (c.service = conn_data.service))
  let srv_host_count := srv_host_conns.length
  let dst_host_srv_serror_rate : ℚ :=
    if dst_host_count > 0 then
      if srv_host_count > 0 then
        ((srv_host_conns.filter (fun c => c.flags.s && !c.flags.a)).length : ℚ) /
          (srv_host_count : ℚ)
      else 0
    else 0
  let dst_host_srv_rerror_rate : ℚ :=
    if dst_host_count > 0 then
      if srv_host_count > 0 then
        ((srv_host_conns.filter (fun c => c.flags.r)).length : ℚ) /
          (srv_host_count : ℚ)
      else 0
    else 0
  let dst_host_srv_diff_host_rate : ℚ :=
    if dst_host_count > 0 then
      if srv_host_count > 0 then
        ((srv_host_conns.filter (fun c => decide (c.src_ip ≠ conn_key.src_ip))).length : ℚ) /
          (srv_host_count : ℚ)
      else 0
    else 0
  { duration := duration
    protocol_type := conn_key.protocol
    service := conn_data.service
    flag := get_connection_flag conn_data
    src_bytes := conn_data.src_bytes
    dst_bytes := conn_data.dst_bytes
    land := conn_data.land
    wrong_fragment := conn_data.wrong_fragment
    urgent := conn_data.urgent
    hot := 0
    num_failed_logins := 0
    logged_in := 0
    count := same_host_count
    srv_count := same_service_count
    src_port := conn_key.src_port
    dst_port := conn_key.dst_port
    serror_rate := serror_rate
    rerror_rate := rerror_rate
    same_srv_rate := same_srv_rate
    diff_srv_rate := diff_srv_rate
    srv_serror_rate := srv_serror_rate
    srv_rerror_rate := srv_rerror_rate
    srv_diff_host_rate := srv_diff_host_rate
    dst_host_count := if dst_host_count > 0 then dst_host_count else 0
    dst_host_srv_count := dst_host_srv_count
    dst_host_same_srv_rate := dst_host_same_srv_rate
    dst_host_diff_srv_rate := dst_host_diff_srv_rate
    dst_host_same_src_port_rate := dst_host_same_src_port_rate
    dst_host_serror_rate := dst_host_serror_rate
    dst_host_rerror_rate := dst_host_rerror_rate
    dst_host_srv_serror_rate := dst_host_srv_serror_rate
    dst_host_srv_rerror_rate := dst_host_srv_rerror_rate
    dst_host_srv_diff_host_rate := dst_host_srv_diff_host_rate }

/-- The history summary appended by `_complete_connection` (lines 906-915). -/
def histEntryOf (conn_key : ConnectionKey) (conn_data : ConnState)
    (now : ℚ) : HistEntry :=
  { time := now
    src_ip := conn_key.src_ip
    dst_ip := conn_key.dst_ip
    src_port := conn_key.src_port
    dst_port := conn_key.dst_port
    protocol := conn_key.protocol
    service := conn_data.service
    flags := conn_data.flags }

/-- Completion (`_complete_connection`, lines 764-930): no-op when the key is not active;
otherwise query the history window and the per-host index, build the record,
append it to the output, record the summary into the bounded history and the
per-host index, and delete the key from the active table. The predictor and
dashboard calls happen after detachment and are external. -/
def complete_connection (σ : CollectorState) (conn_key : ConnectionKey)
    (now : ℚ) : CollectorState :=
  match lookupConn σ.active_connections conn_key with
  | none => σ
  | some conn_data =>
    let duration := now - conn_data.start_time
    let recent :=
      get_recent_connections σ conn_key.dst_ip conn_key.dst_port conn_key.protocol now
    let dst_host_conns := get_host_connections σ conn_key.dst_ip
    let record := buildRecord conn_key conn_data recent.same_host
      recent.same_service dst_host_conns duration
    let entry := histEntryOf conn_key conn_data now
    { σ with
      completed_connections := σ.completed_connections ++ [record]
      connection_history := pushBounded 10000 σ.connection_history entry
      host_connections := fun ip =>
        if ip = conn_key.dst_ip then σ.host_connections ip ++ [entry]
        else σ.host_connections ip
      active_connections := removeConn σ.active_connections conn_key }

/-- The protocol string assigned by `packet_callback`'s transport dispatch. -/
def Transport.protocol : Transport → String
  | .tcp _ _ _ => "tcp"
  | .udp _ _ => "udp"
  | .icmp => "icmp"

/-- Source port extracted by `packet_callback` (`None` for ICMP). -/
def Transport.sport : Transport → Option Nat
  | .tcp sp _ _ => some sp
  | .udp sp _ => some sp
  | .icmp => none

/-- Destination port extracted by `packet_callback` (`None` for ICMP). -/
def Transport.dport : Transport → Option Nat
  | .tcp _ dp _ => some dp
  | .udp _ dp => some dp
  | .icmp => none

/-- The `ConnectionKey` built for a classified packet. -/
def connKeyOf (pkt : Packet) (t : Transport) : ConnectionKey :=
  ⟨pkt.src_ip, pkt.dst_ip, t.sport, t.dport, t.protocol⟩

/-- The fresh `ConnectionState` dict created for an unseen key
(lines 687-699); `land` is computed at creation only. -/
def initConn (pkt : Packet) (t : Transport) (now : ℚ) : ConnState :=
  { start_time := now
    src_bytes := 0
    dst_bytes := 0
    src_packets := 0
    dst_packets := 0
    flags := FlagSet.empty
    urgent := 0
    wrong_fragment := 0
    land := if pkt.src_ip = pkt.dst_ip ∧ t.sport = t.dport ∧ t.sport ≠ some 0
      then 1 else 0
    service := get_service t.dport }

/-- Accumulation of one packet's TCP flag bits into the flag set, using the
`tcp_flags` bitmask table (S=0x02, A=0x10, F=0x01, R=0x04, P=0x08, U=0x20). -/
def addTcpFlags (fs : FlagSet) (bits : Nat) : FlagSet :=
  { s := fs.s || (bits &&& 0x02 != 0)
    a := fs.a || (bits &&& 0x10 != 0)
    f := fs.f || (bits &&& 0x01 != 0)
    r := fs.r || (bits &&& 0x04 != 0)
    p := fs.p || (bits &&& 0x08 != 0)
    u := fs.u || (bits &&& 0x20 != 0) }

/-- The per-packet mutation of a connection's state (lines 701-719): byte and
packet accumulation, TCP flag accumulation and urgent counting when the
packet's flag bits are non-zero (Python truthiness of `flags`), and the
fragmentation check `packet[IP].flags == 1 or packet[IP].frag != 0`. -/
def updateConnData (cd : ConnState) (pkt : Packet) (t : Transport) : ConnState :=
  let cd := { cd with
    src_bytes := cd.src_bytes + pkt.length
    src_packets := cd.src_packets + 1 }
  let cd := match t with
    | .tcp _ _ bits =>
      if bits ≠ 0 then
        { cd with
          flags := addTcpFlags cd.flags bits
          urgent := cd.urgent + (if bits &&& 0x20 ≠ 0 then 1 else 0) }
      else cd
    | _ => cd
  if pkt.ip_flags = 1 ∨ pkt.ip_frag ≠ 0 then
    { cd with wrong_fragment := cd.wrong_fragment + 1 }
  else cd

/-- Ingestion (`packet_callback`, lines 646-732): ignore packets without an IP layer or
with an unsupported transport; create the connection state lazily; accumulate
the packet; complete the connection at once when it is TCP and its
accumulated flags now contain FIN or RST. Statistics printing, the model
switch poll and the dashboard push are external side channels. -/
def packet_callback (σ : CollectorState) (pkt : Packet) (now : ℚ) :
    CollectorState :=
  if pkt.hasIP = false then σ else
  match pkt.transport with
  | none => σ
  | some t =>
    let conn_key := connKeyOf pkt t
    let σ₁ :=
      if (lookupConn σ.active_connections conn_key).isNone then
        { σ with active_connections :=
            σ.active_connections ++ [(conn_key, initConn pkt t now)] }
      else σ
    let newActive := updateConn σ₁.active_connections conn_key
      (fun cd => updateConnData cd pkt t)
    let σ₂ := { σ₁ with active_connections := newActive }
    match lookupConn σ₂.active_connections conn_key with
    | none => σ₂
    | some cd =>
      if t.protocol = "tcp" ∧ (cd.flags.f = true ∨ cd.flags.r = true) then
        complete_connection σ₂ conn_key now
      else σ₂

/-- The Reaper sweep (`cleanup_connections`, lines 956-966): collect the keys of connections
older than 60 seconds, then force-complete each through the normal path. -/
def cleanup_connections (σ : CollectorState) (now : ℚ) : CollectorState :=
  let stale_keys := (σ.active_connections.filter
    (fun kv => decide (now - kv.2.start_time > 60))).map Prod.fst
  stale_keys.foldl (fun σ' k => complete_connection σ' k now) σ

/-! ## Helper lemmas about the association-list operations -/

theorem lookupConn_nil (k : ConnectionKey) : lookupConn [] k = none := rfl

theorem lookupConn_cons (a : ConnectionKey) (b : ConnState)
    (rest : List (ConnectionKey × ConnState)) (k : ConnectionKey) :
    lookupConn ((a, b) :: rest) k = if a = k then some b else lookupConn rest k := rfl

theorem updateConn_cons (a : ConnectionKey) (b : ConnState)
    (rest : List (ConnectionKey × ConnState)) (k : ConnectionKey)
    (f : ConnState → ConnState) :
    updateConn ((a, b) :: rest) k f =
      (if a = k then (a, f b) else (a, b)) :: updateConn rest k f := by
  by_cases h : a = k <;> simp [updateConn, h]

theorem removeConn_cons (a : ConnectionKey) (b : ConnState)
    (rest : List (ConnectionKey × ConnState)) (k : ConnectionKey) :
    removeConn ((a, b) :: rest) k =
      if a = k then removeConn rest k else (a, b) :: removeConn rest k := by
  by_cases h : a = k <;> simp [removeConn, List.filter_cons, h]

theorem lookupConn_append_self (l : List (ConnectionKey × ConnState))
    (k : ConnectionKey) (v : ConnState) (h : lookupConn l k = none) :
    lookupConn (l ++ [(k, v)]) k = some v := by
  induction l with
  | nil => simp [lookupConn]
  | cons kv rest ih =>
    obtain ⟨a, b⟩ := kv
    rw [lookupConn_cons] at h
    rw [List.cons_append, lookupConn_cons]
    by_cases hak : a = k
    · simp [hak] at h
    · rw [if_neg hak] at h ⊢
      exact ih h

theorem lookupConn_append_left (l l' : List (ConnectionKey × ConnState))
    (k : ConnectionKey) (v : ConnState) (h : lookupConn l k = some v) :
    lookupConn (l ++ l') k = some v := by
  induction l with
  | nil => simp [lookupConn] at h
  | cons kv rest ih =>
    obtain ⟨a, b⟩ := kv
    rw [lookupConn_cons] at h
    rw [List.cons_append, lookupConn_cons]
    by_cases hak : a = k
    · rwa [if_pos hak] at h ⊢
    · rw [if_neg hak] at h ⊢
      exact ih h

theorem lookupConn_append_ne (l : List (ConnectionKey × ConnState))
    (k₂ : ConnectionKey) (v : ConnState) (k : ConnectionKey) (h : k ≠ k₂) :
    lookupConn (l ++ [(k₂, v)]) k = lookupConn l k := by
  induction l with
  | nil =>
    rw [List.nil_append, lookupConn_cons, lookupConn_nil,
      if_neg (fun hh => h hh.symm)]
  | cons kv rest ih =>
    obtain ⟨a, b⟩ := kv
    rw [List.cons_append, lookupConn_cons, lookupConn_cons, ih]

theorem lookupConn_updateConn (l : List (ConnectionKey × ConnState))
    (k : ConnectionKey) (f : ConnState → ConnState) :
    lookupConn (updateConn l k f) k = (lookupConn l k).map f := by
  induction l with
  | nil => rfl
  | cons kv rest ih =>
    obtain ⟨a, b⟩ := kv
    rw [updateConn_cons]
    by_cases hak : a = k
    · rw [if_pos hak, lookupConn_cons, lookupConn_cons, if_pos hak, if_pos hak]
      rfl
    · rw [if_neg hak, lookupConn_cons, lookupConn_cons, if_neg hak, if_neg hak]
      exact ih

theorem lookupConn_updateConn_ne (l : List (ConnectionKey × ConnState))
    (k k' : ConnectionKey) (f : ConnState → ConnState) (h : k' ≠ k) :
    lookupConn (updateConn l k f) k' = lookupConn l k' := by
  induction l with
  | nil => rfl
  | cons kv rest ih =>
    obtain ⟨a, b⟩ := kv
    rw [updateConn_cons]
    by_cases hak : a = k
    · subst hak
      rw [if_pos rfl, lookupConn_cons, lookupConn_cons,
        if_neg (fun hh => h hh.symm), if_neg (fun hh => h hh.symm)]
      exact ih
    · rw [if_neg hak]
      by_cases hak' : a = k'
      · rw [lookupConn_cons, lookupConn_cons, if_pos hak', if_pos hak']
      · rw [lookupConn_cons, lookupConn_cons, if_neg hak', if_neg hak']
        exact ih

theorem lookupConn_removeConn (l : List (ConnectionKey × ConnState))
    (k k' : ConnectionKey) :
    lookupConn (removeConn l k) k' =
      if k' = k then none else lookupConn l k' := by
  induction l with
  | nil => simp [removeConn, lookupConn]
  | cons kv rest ih =>
    obtain ⟨a, b⟩ := kv
    rw [removeConn_cons]
    by_cases hak : a = k
    · subst hak
      rw [if_pos rfl, ih, lookupConn_cons]
      by_cases h' : k' = a
      · simp [h']
      · simp [h', Ne.symm h']
    · rw [if_neg hak, lookupConn_cons, lookupConn_cons, ih]
      by_cases h' : k' = k
      · rw [if_pos h', if_pos h', if_neg]
        intro haa
        exact absurd (haa.trans h') hak
      · rw [if_neg h', if_neg h']

theorem lookupConn_mem (l : List (ConnectionKey × ConnState))
    (k : ConnectionKey) (v : ConnState) (h : lookupConn l k = some v) :
    (k, v) ∈ l := by
  induction l with
  | nil => simp [lookupConn] at h
  | cons kv rest ih =>
    obtain ⟨a, b⟩ := kv
    rw [lookupConn_cons] at h
    by_cases hak : a = k
    · rw [if_pos hak] at h
      obtain rfl := hak
      obtain rfl : b = v := by simpa using h
      exact List.mem_cons_self _ _
    · rw [if_neg hak] at h
      exact List.mem_cons_of_mem _ (ih h)

/-- The lazily-created-then-updated table of `packet_callback` seen at the
packet's own key. -/
theorem lookupConn_insert_update (l : List (ConnectionKey × ConnState))
    (k : ConnectionKey) (v₀ : ConnState) (f : ConnState → ConnState) :
    lookupConn (updateConn
      (if (lookupConn l k).isNone then l ++ [(k, v₀)] else l) k f) k =
      some (f ((lookupConn l k).getD v₀)) := by
  cases hc : lookupConn l k with
  | none =>
    rw [lookupConn_updateConn]
    simp [hc, lookupConn_append_self l k v₀ hc]
  | some c =>
    rw [lookupConn_updateConn]
    simp [hc]

/-- The lazily-created-then-updated table of `packet_callback` seen at any
other key. -/
theorem lookupConn_insert_update_ne (l : List (ConnectionKey × ConnState))
    (k : ConnectionKey) (v₀ : ConnState) (f : ConnState → ConnState)
    (k' : ConnectionKey) (h : k' ≠ k) :
    lookupConn (updateConn
      (if (lookupConn l k).isNone then l ++ [(k, v₀)] else l) k f) k' =
      lookupConn l k' := by
  cases hc : lookupConn l k with
  | none =>
    simp only [hc, Option.isNone_none, if_true]
    rw [lookupConn_updateConn_ne _ _ _ _ h, lookupConn_append_ne _ _ _ _ h]
  | some c =>
    simp only [hc, Option.isNone_some, Bool.false_eq_true, if_false]
    rw [lookupConn_updateConn_ne _ _ _ _ h]

/-! ## Unfolding equations for the transition functions -/

/-- Unfolding of `_complete_connection` on an active key. -/
theorem complete_connection_eq (σ : CollectorState) (k : ConnectionKey)
    (now : ℚ) (cd : ConnState)
    (h : lookupConn σ.active_connections k = some cd) :
    complete_connection σ k now =
      { σ with
        completed_connections := σ.completed_connections ++
          [buildRecord k cd
            (get_recent_connections σ k.dst_ip k.dst_port k.protocol now).same_host
            (get_recent_connections σ k.dst_ip k.dst_port k.protocol now).same_service
            (get_host_connections σ k.dst_ip) (now - cd.start_time)]
        connection_history :=
          pushBounded 10000 σ.connection_history (histEntryOf k cd now)
        host_connections := fun ip =>
          if ip = k.dst_ip then σ.host_connections ip ++ [histEntryOf k cd now]
          else σ.host_connections ip
        active_connections := removeConn σ.active_connections k } := by
  unfold complete_connection
  rw [h]

/-- Completion of an inactive key is a no-op (line 767). -/
theorem complete_connection_skip (σ : CollectorState) (k : ConnectionKey)
    (now : ℚ) (h : lookupConn σ.active_connections k = none) :
    complete_connection σ k now = σ := by
  unfold complete_connection
  rw [h]

/-- Ingestion of a packet without an IP layer is a no-op. -/
theorem packet_callback_noip (σ : CollectorState) (pkt : Packet) (now : ℚ)
    (hip : pkt.hasIP = false) : packet_callback σ pkt now = σ := by
  unfold packet_callback
  rw [hip]
  rfl

/-- Ingestion of an unsupported transport is a no-op. -/
theorem packet_callback_notrans (σ : CollectorState) (pkt : Packet) (now : ℚ)
    (hip : pkt.hasIP = true) (ht : pkt.transport = none) :
    packet_callback σ pkt now = σ := by
  unfold packet_callback
  rw [hip, ht]
  simp

/-- Ingestion of a non-TCP transport: create/accumulate, never
complete. -/
theorem packet_callback_nontcp (σ : CollectorState) (pkt : Packet) (now : ℚ)
    (t : Transport) (hip : pkt.hasIP = true) (ht : pkt.transport = some t)
    (hnt : t.protocol ≠ "tcp") :
    packet_callback σ pkt now =
      { σ with
        active_connections :=
          updateConn
            (if (lookupConn σ.active_connections (connKeyOf pkt t)).isNone then
              σ.active_connections ++ [(connKeyOf pkt t, initConn pkt t now)]
            else σ.active_connections)
            (connKeyOf pkt t) (fun cd => updateConnData cd pkt t) } := by
  unfold packet_callback
  rw [hip, ht]
  simp only [Bool.true_eq_false, if_false]
  cases hc : lookupConn σ.active_connections (connKeyOf pkt t) with
  | none =>
    simp only [hc, Option.isNone_none, if_true]
    split
    · rfl
    · rw [if_neg (fun hcontra => hnt hcontra.1)]
  | some c =>
    simp only [hc, Option.isNone_some, Bool.false_eq_true, if_false]
    split
    · rfl
    · rw [if_neg (fun hcontra => hnt hcontra.1)]

/-- Ingestion of a TCP packet: create/accumulate, then complete at
once iff the accumulated flags now contain FIN or RST. -/
theorem packet_callback_tcp (σ : CollectorState) (pkt : Packet) (now : ℚ)
    (sp dp bits : Nat) (hip : pkt.hasIP = true)
    (ht : pkt.transport = some (.tcp sp dp bits)) :
    packet_callback σ pkt now =
      (let t : Transport := .tcp sp dp bits
      let k := connKeyOf pkt t
      let cd₁ := updateConnData
        ((lookupConn σ.active_connections k).getD (initConn pkt t now)) pkt t
      let act₂ := updateConn
        (if (lookupConn σ.active_connections k).isNone then
          σ.active_connections ++ [(k, initConn pkt t now)]
        else σ.active_connections) k (fun cd => updateConnData cd pkt t)
      let σ₂ : CollectorState := { σ with active_connections := act₂ }
      if cd₁.flags.f = true ∨ cd₁.flags.r = true then
        complete_connection σ₂ k now
      else σ₂) := by
  unfold packet_callback
  rw [hip, ht]
  simp only [Bool.true_eq_false, if_false]
  cases hc : lookupConn σ.active_connections (connKeyOf pkt (.tcp sp dp bits)) with
  | none =>
    have h2 : lookupConn (updateConn (σ.active_connections ++
        [(connKeyOf pkt (.tcp sp dp bits), initConn pkt (.tcp sp dp bits) now)])
        (connKeyOf pkt (.tcp sp dp bits))
        (fun cd => updateConnData cd pkt (.tcp sp dp bits)))
        (connKeyOf pkt (.tcp sp dp bits)) =
        some (updateConnData (initConn pkt (.tcp sp dp bits) now) pkt
          (.tcp sp dp bits)) := by
      rw [lookupConn_updateConn, lookupConn_append_self _ _ _ hc]
      rfl
    simp only [hc, Option.isNone_none, if_true, Option.getD_none, h2]
    simp [Transport.protocol]
  | some c =>
    have h2 : lookupConn (updateConn σ.active_connections
        (connKeyOf pkt (.tcp sp dp bits))
        (fun cd => updateConnData cd pkt (.tcp sp dp bits)))
        (connKeyOf pkt (.tcp sp dp bits)) =
        some (updateConnData c pkt (.tcp sp dp bits)) := by
      rw [lookupConn_updateConn, hc]
      rfl
    simp only [hc, Option.isNone_some, Bool.false_eq_true, if_false,
      Option.getD_some, h2]
    simp [Transport.protocol]

/-! ## Helper lemmas for rate bounds -/

/-- A filter-count fraction lies in the unit interval (also when the list is
empty: `0 / 0 = 0` in `ℚ`). -/
theorem rateBound (l : List HistEntry) (p : HistEntry → Bool) :
    0 ≤ ((l.filter p).length : ℚ) / (l.length : ℚ) ∧
      ((l.filter p).length : ℚ) / (l.length : ℚ) ≤ 1 := by
  constructor
  · exact div_nonneg (by positivity) (by positivity)
  · rcases Nat.eq_zero_or_pos l.length with h | h
    · simp [h]
    · apply div_le_one_of_le₀
      · exact_mod_cast List.length_filter_le p l
      · positivity

/-- A guarded value in the unit interval stays in it (the guard's else branch
is the literal `0.0`). -/
theorem unitIf (c : Prop) [Decidable c] (x : ℚ) (hx : 0 ≤ x ∧ x ≤ 1) :
    0 ≤ (if c then x else 0) ∧ (if c then x else 0) ≤ 1 := by
  split_ifs with h
  · exact hx
  · norm_num

/-! ## Helper lemmas for the Reaper path -/

/-- After `_complete_connection` on `k`, `k` is never active. -/
theorem complete_self_none (σ : CollectorState) (k : ConnectionKey) (now : ℚ) :
    lookupConn (complete_connection σ k now).active_connections k = none := by
  cases hc : lookupConn σ.active_connections k with
  | none => rw [complete_connection_skip σ k now hc, hc]
  | some cd =>
    rw [complete_connection_eq σ k now cd hc]
    simp [lookupConn_removeConn]

/-- Completion never adds a key to the active table. -/
theorem complete_none_mono (σ : CollectorState) (k k' : ConnectionKey)
    (now : ℚ) (h : lookupConn σ.active_connections k' = none) :
    lookupConn (complete_connection σ k now).active_connections k' = none := by
  cases hc : lookupConn σ.active_connections k with
  | none => rw [complete_connection_skip σ k now hc, h]
  | some cd =>
    rw [complete_connection_eq σ k now cd hc]
    simp only [lookupConn_removeConn]
    split
    · rfl
    · exact h

/-- Folding `_complete_connection` over a key list removes every listed key. -/
theorem foldl_complete_none (ks : List ConnectionKey) (σ : CollectorState)
    (now : ℚ) (k : ConnectionKey)
    (h : k ∈ ks ∨ lookupConn σ.active_connections k = none) :
    lookupConn ((ks.foldl (fun σ' k' => complete_connection σ' k' now)
      σ).active_connections) k = none := by
  induction ks generalizing σ with
  | nil =>
    rcases h with h | h
    · simp at h
    · exact h
  | cons a rest ih =>
    rw [List.foldl_cons]
    rcases h with h | h
    · rcases List.mem_cons.1 h with rfl | hmem
      · exact ih _ (Or.inr (complete_self_none σ k now))
      · exact ih _ (Or.inl hmem)
    · exact ih _ (Or.inr (complete_none_mono σ a k now h))

/-! ## Helper lemmas for the dst_bytes invariant -/

/-- Per-packet accumulation never touches `dst_bytes` (only `src_bytes` is
incremented, line 705). -/
theorem updateConnData_dst_bytes (cd : ConnState) (pkt : Packet)
    (t : Transport) : (updateConnData cd pkt t).dst_bytes = cd.dst_bytes := by
  unfold updateConnData
  cases t <;> dsimp only <;> split_ifs <;> rfl

/-- The record copies the connection's `dst_bytes` verbatim (line 783). -/
theorem buildRecord_dst_bytes (ck : ConnectionKey) (cd : ConnState)
    (sh ss dh : List HistEntry) (dur : ℚ) :
    (buildRecord ck cd sh ss dh dur).dst_bytes = cd.dst_bytes := rfl

/-- The create-then-accumulate step preserves "all active flows have
`dst_bytes = 0`". -/
theorem active_dstzero_step (l : List (ConnectionKey × ConnState))
    (k : ConnectionKey) (v₀ : ConnState) (pkt : Packet) (t : Transport)
    (ha : ∀ kv ∈ l, (kv : ConnectionKey × ConnState).2.dst_bytes = 0)
    (h₀ : v₀.dst_bytes = 0) :
    ∀ kv ∈ updateConn (if (lookupConn l k).isNone then l ++ [(k, v₀)] else l) k
      (fun cd => updateConnData cd pkt t),
      (kv : ConnectionKey × ConnState).2.dst_bytes = 0 := by
  intro kv hkv
  rw [updateConn] at hkv
  rcases List.mem_map.1 hkv with ⟨kv₀, hkv₀, rfl⟩
  have h₀' : kv₀.2.dst_bytes = 0 := by
    split at hkv₀
    · rcases List.mem_append.1 hkv₀ with h | h
      · exact ha kv₀ h
      · obtain rfl : kv₀ = (k, v₀) := by simpa using h
        exact h₀
    · exact ha kv₀ hkv₀
  split
  · simpa [updateConnData_dst_bytes] using h₀'
  · exact h₀'

/-- Completion preserves the dst_bytes-zero invariant on both the
active table and the produced records. -/
theorem complete_preserves_dstzero (σ : CollectorState) (k : ConnectionKey)
    (now : ℚ)
    (ha : ∀ kv ∈ σ.active_connections,
      (kv : ConnectionKey × ConnState).2.dst_bytes = 0)
    (hr : ∀ r ∈ σ.completed_connections, (r : FeatureRecord).dst_bytes = 0) :
    (∀ kv ∈ (complete_connection σ k now).active_connections,
      (kv : ConnectionKey × ConnState).2.dst_bytes = 0) ∧
    (∀ r ∈ (complete_connection σ k now).completed_connections,
      (r : FeatureRecord).dst_bytes = 0) := by
  cases hc : lookupConn σ.active_connections k with
  | none =>
    rw [complete_connection_skip σ k now hc]
    exact ⟨ha, hr⟩
  | some cd =>
    rw [complete_connection_eq σ k now cd hc]
    constructor
    · intro kv hkv
      exact ha kv (List.mem_of_mem_filter hkv)
    · intro r hrr
      rcases List.mem_append.1 hrr with h | h
      · exact hr r h
      · have hre : r = buildRecord k cd
            (get_recent_connections σ k.dst_ip k.dst_port k.protocol now).same_host
            (get_recent_connections σ k.dst_ip k.dst_port k.protocol now).same_service
            (get_host_connections σ k.dst_ip) (now - cd.start_time) := by
          simpa using h
        rw [hre, buildRecord_dst_bytes]
        exact ha (k, cd) (lookupConn_mem _ _ _ hc)

/-! ## Concrete fixtures used by witnesses and counterexamples -/

/-- A concrete TCP RST packet (port 80, never fragmented). -/
def pktRst : Packet :=
  { hasIP := true, src_ip := "1.1.1.1", dst_ip := "2.2.2.2",
    transport := some (.tcp 5555 80 0x04), length := 40,
    ip_flags := 0, ip_frag := 0 }

/-- A concrete TCP FIN packet. -/
def pktFin : Packet :=
  { hasIP := true, src_ip := "1.1.1.1", dst_ip := "2.2.2.2",
    transport := some (.tcp 7777 80 0x01), length := 64,
    ip_flags := 0, ip_frag := 0 }

/-- A concrete UDP packet to port 53. -/
def pktUdp : Packet :=
  { hasIP := true, src_ip := "1.1.1.1", dst_ip := "2.2.2.2",
    transport := some (.udp 4444 53), length := 80,
    ip_flags := 0, ip_frag := 0 }

/-- A concrete connection key. -/
def ckW : ConnectionKey :=
  ⟨"1.1.1.1", "2.2.2.2", some 5555, some 80, "tcp"⟩

/-- A concrete connection state. -/
def cdW : ConnState :=
  ⟨0, 40, 0, 1, 0, ⟨false, false, false, true, false, false⟩, 0, 0, 0, "http"⟩

/-- A concrete history entry to host `2.2.2.2`, service `http`. -/
def eW : HistEntry :=
  ⟨0, "1.1.1.1", "2.2.2.2", some 5555, some 80, "tcp", "http",
    ⟨false, false, false, true, false, false⟩⟩

/-! ## C1 -/

/-- C1 counterexample: the very first completed flow (TCP RST into an empty
collector) has an empty same-host window, and the code then sets both
`same_srv_rate` and `diff_srv_rate` to `0.0`, so their sum is 0, not 1.0. -/
theorem C1_counterexample :
    ((packet_callback (initState 2) pktRst 0).completed_connections.map
      (fun r => r.same_srv_rate + r.diff_srv_rate)) = [0] ∧ (0 : ℚ) ≠ 1 := by
  constructor
  · have h : ((packet_callback (initState 2) pktRst 0).completed_connections.map
        (fun r => r.same_srv_rate + r.diff_srv_rate)) = [(0 : ℚ) + 0] := rfl
    rw [h]
    norm_num
  · norm_num

/-- C1 (amended): in every produced record, `diff_srv_rate` is computed as
the exact complement `1 - same_srv_rate` whenever the same-host window is
non-empty, so then `same_srv_rate + diff_srv_rate = 1`; when the same-host
window is empty, both rates are set to `0.0` and the sum is 0. -/
theorem C1_same_diff_srv_complement (ck : ConnectionKey) (cd : ConnState)
    (sh ss dh : List HistEntry) (dur : ℚ) :
    (sh ≠ [] →
      (buildRecord ck cd sh ss dh dur).same_srv_rate +
        (buildRecord ck cd sh ss dh dur).diff_srv_rate = 1) ∧
    (sh = [] →
      (buildRecord ck cd sh ss dh dur).same_srv_rate = 0 ∧
        (buildRecord ck cd sh ss dh dur).diff_srv_rate = 0) := by
  simp only [buildRecord]
  constructor
  · intro h
    have hl : 0 < sh.length := List.length_pos.2 h
    simp only [if_pos hl]
    ring
  · intro h
    simp [h]

/-- C1 witness: the amended statement evaluated at a one-entry window and at
an empty window. -/
theorem C1_witness :
    ([eW] ≠ ([] : List HistEntry)) ∧
    ((buildRecord ckW cdW [eW] [] [] 0).same_srv_rate +
      (buildRecord ckW cdW [eW] [] [] 0).diff_srv_rate = 1) ∧
    ((buildRecord ckW cdW [] [] [] 0).same_srv_rate = 0) ∧
    ((buildRecord ckW cdW [] [] [] 0).diff_srv_rate = 0) :=
  ⟨by simp,
   (C1_same_diff_srv_complement ckW cdW [eW] [] [] 0).1 (by simp),
   ((C1_same_diff_srv_complement ckW cdW [] [] [] 0).2 rfl).1,
   ((C1_same_diff_srv_complement ckW cdW [] [] [] 0).2 rfl).2⟩

/-! ## C2 -/

/-- C2: ingesting a TCP packet completes its flow — appends exactly one
record and removes the key from the active table — if and only if the flow's
accumulated flag set contains FIN or RST after that packet. -/
theorem C2_tcp_completion_iff (σ : CollectorState) (pkt : Packet) (now : ℚ)
    (sp dp bits : Nat) (hip : pkt.hasIP = true)
    (ht : pkt.transport = some (.tcp sp dp bits)) :
    ((lookupConn (packet_callback σ pkt now).active_connections
        (connKeyOf pkt (.tcp sp dp bits)) = none ∧
      (packet_callback σ pkt now).completed_connections.length =
        σ.completed_connections.length + 1) ↔
     ((updateConnData ((lookupConn σ.active_connections
          (connKeyOf pkt (.tcp sp dp bits))).getD
            (initConn pkt (.tcp sp dp bits) now)) pkt
          (.tcp sp dp bits)).flags.f = true ∨
      (updateConnData ((lookupConn σ.active_connections
          (connKeyOf pkt (.tcp sp dp bits))).getD
            (initConn pkt (.tcp sp dp bits) now)) pkt
          (.tcp sp dp bits)).flags.r = true)) := by
  rw [packet_callback_tcp σ pkt now sp dp bits hip ht]
  set t : Transport := .tcp sp dp bits with htdef
  set k := connKeyOf pkt t with hkdef
  set cd₁ := updateConnData
    ((lookupConn σ.active_connections k).getD (initConn pkt t now)) pkt t with hcd
  set act₂ := updateConn
    (if (lookupConn σ.active_connections k).isNone then
      σ.active_connections ++ [(k, initConn pkt t now)]
    else σ.active_connections) k (fun cd => updateConnData cd pkt t) with hact
  have hl2 : lookupConn act₂ k = some cd₁ := by
    rw [hact, hcd]
    exact lookupConn_insert_update _ _ _ _
  by_cases hcond : cd₁.flags.f = true ∨ cd₁.flags.r = true
  · rw [if_pos hcond]
    have he := complete_connection_eq
      { σ with active_connections := act₂ } k now cd₁ hl2
    rw [he]
    simp only [lookupConn_removeConn, if_pos rfl, List.length_append]
    constructor
    · intro _
      exact hcond
    · intro _
      exact ⟨rfl, rfl⟩
  · rw [if_neg hcond]
    constructor
    · intro hcontra
      rw [hl2] at hcontra
      exact absurd hcontra.1 (by simp)
    · intro hcontra
      exact absurd hcontra hcond

/-- C2 witness: a concrete FIN packet into an empty collector completes its
flow at once. -/
theorem C2_witness :
    pktFin.hasIP = true ∧ pktFin.transport = some (.tcp 7777 80 0x01) ∧
    ((lookupConn (packet_callback (initState 2) pktFin 0).active_connections
        (connKeyOf pktFin (.tcp 7777 80 0x01)) = none ∧
      (packet_callback (initState 2) pktFin 0).completed_connections.length =
        (initState 2).completed_connections.length + 1) ↔
     ((updateConnData ((lookupConn (initState 2).active_connections
          (connKeyOf pktFin (.tcp 7777 80 0x01))).getD
            (initConn pktFin (.tcp 7777 80 0x01) 0)) pktFin
          (.tcp 7777 80 0x01)).flags.f = true ∨
      (updateConnData ((lookupConn (initState 2).active_connections
          (connKeyOf pktFin (.tcp 7777 80 0x01))).getD
            (initConn pktFin (.tcp 7777 80 0x01) 0)) pktFin
          (.tcp 7777 80 0x01)).flags.r = true)) :=
  ⟨rfl, rfl, C2_tcp_completion_iff (initState 2) pktFin 0 7777 80 0x01 rfl rfl⟩

/-! ## C3 -/

/-- C3: the connection-flag classifier agrees with the spec's six-rule
top-to-bottom precedence on every flag set, and it can never return `RSTO`
(the `RST and SYN` rule is dead: any set containing RST is caught earlier by
the `SF` rule when SYN and FIN are both present, or by the `REJ` rule). -/
theorem C3_connection_flag_precedence (cd : ConnState) :
    get_connection_flag cd = connection_flag_spec cd.flags ∧
    get_connection_flag cd ≠ "RSTO" := by
  obtain ⟨_, _, _, _, _, ⟨s, a, f, r, p, u⟩, _, _, _, _⟩ := cd
  cases s <;> cases a <;> cases f <;> cases r <;>
    simp [get_connection_flag, connection_flag_spec]

/-! ## C7 -/

/-- C7 counterexample: a packet with the IP flags field equal to 3 (MF set
together with DF) and zero fragment offset has its more-fragments bit set,
yet `wrong_fragment` is not incremented, because the code tests
`packet[IP].flags == 1` (exact equality) rather than bit membership. -/
theorem C7_counterexample :
    (let pkt : Packet :=
      { hasIP := true, src_ip := "10.0.0.1", dst_ip := "10.0.0.2",
        transport := some (.tcp 1234 80 0), length := 60,
        ip_flags := 3, ip_frag := 0 }
    pkt.ip_flags &&& 1 ≠ 0 ∧
      (updateConnData (initConn pkt (.tcp 1234 80 0) 0) pkt
        (.tcp 1234 80 0)).wrong_fragment = 0) := by
  decide

/-- C7 (amended): per ingested packet, `wrong_fragment` is incremented
exactly when the packet's IP flags field equals exactly 1 (more-fragments
alone, no other IP flag bits) or its fragment offset is non-zero. -/
theorem C7_wrong_fragment_exact (cd : ConnState) (pkt : Packet)
    (t : Transport) :
    (updateConnData cd pkt t).wrong_fragment =
      cd.wrong_fragment +
        (if pkt.ip_flags = 1 ∨ pkt.ip_frag ≠ 0 then 1 else 0) := by
  unfold updateConnData
  cases t <;> dsimp only <;> split_ifs <;> simp

/-! ## C4 -/

/-- C4: every rate feature of every produced record lies in `[0,1]`, and
whenever the corresponding reference-count denominator (same-host window,
same-service window, per-host index, or its same-service subset) is 0, the
rate is exactly `0.0`. -/
theorem C4_rate_features_unit_interval (ck : ConnectionKey) (cd : ConnState)
    (sh ss dh : List HistEntry) (dur : ℚ) :
    (0 ≤ (buildRecord ck cd sh ss dh dur).serror_rate ∧
      (buildRecord ck cd sh ss dh dur).serror_rate ≤ 1) ∧
    (0 ≤ (buildRecord ck cd sh ss dh dur).rerror_rate ∧
      (buildRecord ck cd sh ss dh dur).rerror_rate ≤ 1) ∧
    (0 ≤ (buildRecord ck cd sh ss dh dur).same_srv_rate ∧
      (buildRecord ck cd sh ss dh dur).same_srv_rate ≤ 1) ∧
    (0 ≤ (buildRecord ck cd sh ss dh dur).diff_srv_rate ∧
      (buildRecord ck cd sh ss dh dur).diff_srv_rate ≤ 1) ∧
    (0 ≤ (buildRecord ck cd sh ss dh dur).srv_serror_rate ∧
      (buildRecord ck cd sh ss dh dur).srv_serror_rate ≤ 1) ∧
    (0 ≤ (buildRecord ck cd sh ss dh dur).srv_rerror_rate ∧
      (buildRecord ck cd sh ss dh dur).srv_rerror_rate ≤ 1) ∧
    (0 ≤ (buildRecord ck cd sh ss dh dur).srv_diff_host_rate ∧
      (buildRecord ck cd sh ss dh dur).srv_diff_host_rate ≤ 1) ∧
    (0 ≤ (buildRecord ck cd sh ss dh dur).dst_host_same_srv_rate ∧
      (buildRecord ck cd sh ss dh dur).dst_host_same_srv_rate ≤ 1) ∧
    (0 ≤ (buildRecord ck cd sh ss dh dur).dst_host_diff_srv_rate ∧
      (buildRecord ck cd sh ss dh dur).dst_host_diff_srv_rate ≤ 1) ∧
    (0 ≤ (buildRecord ck cd sh ss dh dur).dst_host_same_src_port_rate ∧
      (buildRecord ck cd sh ss dh dur).dst_host_same_src_port_rate ≤ 1) ∧
    (0 ≤ (buildRecord ck cd sh ss dh dur).dst_host_serror_rate ∧
      (buildRecord ck cd sh ss dh dur).dst_host_serror_rate ≤ 1) ∧
    (0 ≤ (buildRecord ck cd sh ss dh dur).dst_host_rerror_rate ∧
      (buildRecord ck cd sh ss dh dur).dst_host_rerror_rate ≤ 1) ∧
    (0 ≤ (buildRecord ck cd sh ss dh dur).dst_host_srv_serror_rate ∧
      (buildRecord ck cd sh ss dh dur).dst_host_srv_serror_rate ≤ 1) ∧
    (0 ≤ (buildRecord ck cd sh ss dh dur).dst_host_srv_rerror_rate ∧
      (buildRecord ck cd sh ss dh dur).dst_host_srv_rerror_rate ≤ 1) ∧
    (0 ≤ (buildRecord ck cd sh ss dh dur).dst_host_srv_diff_host_rate ∧
      (buildRecord ck cd sh ss dh dur).dst_host_srv_diff_host_rate ≤ 1) ∧
    (sh.length = 0 →
      (buildRecord ck cd sh ss dh dur).serror_rate = 0 ∧
      (buildRecord ck cd sh ss dh dur).rerror_rate = 0 ∧
      (buildRecord ck cd sh ss dh dur).same_srv_rate = 0 ∧
      (buildRecord ck cd sh ss dh dur).diff_srv_rate = 0) ∧
    (ss.length = 0 →
      (buildRecord ck cd sh ss dh dur).srv_serror_rate = 0 ∧
      (buildRecord ck cd sh ss dh dur).srv_rerror_rate = 0 ∧
      (buildRecord ck cd sh ss dh dur).srv_diff_host_rate = 0) ∧
    (dh.length = 0 →
      (buildRecord ck cd sh ss dh dur).dst_host_same_srv_rate = 0 ∧
      (buildRecord ck cd sh ss dh dur).dst_host_diff_srv_rate = 0 ∧
      (buildRecord ck cd sh ss dh dur).dst_host_same_src_port_rate = 0 ∧
      (buildRecord ck cd sh ss dh dur).dst_host_serror_rate = 0 ∧
      (buildRecord ck cd sh ss dh dur).dst_host_rerror_rate = 0 ∧
      (buildRecord ck cd sh ss dh dur).dst_host_srv_serror_rate = 0 ∧
      (buildRecord ck cd sh ss dh dur).dst_host_srv_rerror_rate = 0 ∧
      (buildRecord ck cd sh ss dh dur).dst_host_srv_diff_host_rate = 0) ∧
    ((dh.filter (fun c => decide (c.service = cd.service))).length = 0 →
      (buildRecord ck cd sh ss dh dur).dst_host_srv_serror_rate = 0 ∧
      (buildRecord ck cd sh ss dh dur).dst_host_srv_rerror_rate = 0 ∧
      (buildRecord ck cd sh ss dh dur).dst_host_srv_diff_host_rate = 0) := by
  simp only [buildRecord]
  refine ⟨?_, ?_, ?_, ?_, ?_, ?_, ?_, ?_, ?_, ?_, ?_, ?_, ?_, ?_, ?_,
    ?_, ?_, ?_, ?_⟩
  · exact unitIf _ _ (rateBound _ _)
  · exact unitIf _ _ (rateBound _ _)
  · exact unitIf _ _ (rateBound _ _)
  · have h := rateBound sh (fun c => decide (c.service = cd.service))
    split_ifs with hl
    · constructor <;> [linarith [h.2]; linarith [h.1]]
    · norm_num
  · exact unitIf _ _ (rateBound _ _)
  · exact unitIf _ _ (rateBound _ _)
  · exact unitIf _ _ (rateBound _ _)
  · have h := rateBound dh (fun c => decide (c.service = cd.service))
    split_ifs with hl
    · simpa [hl] using h
    · norm_num
  · have h := rateBound dh (fun c => decide (c.service = cd.service))
    split_ifs with hl
    · have h' : (0 : ℚ) ≤
          (((dh.filter (fun c => decide (c.service = cd.service))).length : ℚ) /
            (dh.length : ℚ)) ∧
          (((dh.filter (fun c => decide (c.service = cd.service))).length : ℚ) /
            (dh.length : ℚ)) ≤ 1 := h
      constructor <;> [linarith [h'.2]; linarith [h'.1]]
    · norm_num
  · exact unitIf _ _ (rateBound _ _)
  · exact unitIf _ _ (rateBound _ _)
  · exact unitIf _ _ (rateBound _ _)
  · have h := rateBound (dh.filter (fun c => decide (c.service = cd.service)))
      (fun c => c.flags.s && !c.flags.a)
    split_ifs with h1 h2
    · exact h
    · norm_num
    · norm_num
  · have h := rateBound (dh.filter (fun c => decide (c.service = cd.service)))
      (fun c => c.flags.r)
    split_ifs with h1 h2
    · exact h
    · norm_num
    · norm_num
  · have h := rateBound (dh.filter (fun c => decide (c.service = cd.service)))
      (fun c => decide (c.src_ip ≠ ck.src_ip))
    split_ifs with h1 h2
    · exact h
    · norm_num
    · norm_num
  · intro h
    simp [h]
  · intro h
    simp [h]
  · intro h
    simp [h]
  · intro h
    simp [h]

/-- C4 witness: bounds and zero-denominator defaults evaluated at a concrete
record with a one-entry same-host window and empty service/host indices. -/
theorem C4_witness :
    (0 ≤ (buildRecord ckW cdW [eW] [] [] 0).serror_rate ∧
      (buildRecord ckW cdW [eW] [] [] 0).serror_rate ≤ 1) ∧
    ((buildRecord ckW cdW [eW] [] [] 0).srv_serror_rate = 0) ∧
    ((buildRecord ckW cdW [eW] [] [] 0).dst_host_srv_serror_rate = 0) := by
  obtain ⟨h1, _, _, _, _, _, _, _, _, _, _, _, _, _, _, _, hss, _, hsrv⟩ :=
    C4_rate_features_unit_interval ckW cdW [eW] [] [] 0
  exact ⟨h1, (hss rfl).1, (hsrv rfl).1⟩

/-! ## C5 -/

/-- C5: `_complete_connection` evaluates both history queries against the
pre-insertion state — the record appended is built from the old history and
the old per-host index, while the flow's own summary is only inserted
afterwards. Consequently (parts 2 and 3) re-running the same-host window
query, or the per-host query, on the post-state finds exactly one more entry
(the flow's own), proving the produced counts and rates excluded the flow
itself. -/
theorem C5_query_before_insert (σ : CollectorState) (k : ConnectionKey)
    (cd : ConnState) (now : ℚ)
    (h : lookupConn σ.active_connections k = some cd)
    (hcap : σ.connection_history.length < 10000)
    (hwin : 0 ≤ σ.window_size) :
    ((complete_connection σ k now).completed_connections =
      σ.completed_connections ++
        [buildRecord k cd
          (get_recent_connections σ k.dst_ip k.dst_port k.protocol now).same_host
          (get_recent_connections σ k.dst_ip k.dst_port k.protocol now).same_service
          (get_host_connections σ k.dst_ip) (now - cd.start_time)]) ∧
    ((get_recent_connections (complete_connection σ k now) k.dst_ip k.dst_port
        k.protocol now).same_host.length =
      (get_recent_connections σ k.dst_ip k.dst_port
        k.protocol now).same_host.length + 1) ∧
    (get_host_connections (complete_connection σ k now) k.dst_ip =
      get_host_connections σ k.dst_ip ++ [histEntryOf k cd now]) := by
  rw [complete_connection_eq σ k now cd h]
  refine ⟨rfl, ?_, ?_⟩
  · simp only [get_recent_connections, pushBounded, if_pos hcap,
      List.filter_append, List.length_append]
    have ht : ¬ (histEntryOf k cd now).time < now - σ.window_size := by
      simp only [histEntryOf]
      linarith
    simp [List.filter_cons, ht, histEntryOf, hwin]
  · simp [get_host_connections]

/-- A concrete collector state holding one active TCP flow. -/
def σW5 : CollectorState :=
  { active_connections := [(ckW, cdW)]
    completed_connections := []
    connection_history := []
    host_connections := fun _ => []
    window_size := 2 }

/-- C5 witness: the query-before-insert decomposition evaluated on a
one-flow collector. -/
theorem C5_witness :
    ((complete_connection σW5 ckW 0).completed_connections =
      σW5.completed_connections ++
        [buildRecord ckW cdW
          (get_recent_connections σW5 ckW.dst_ip ckW.dst_port ckW.protocol 0).same_host
          (get_recent_connections σW5 ckW.dst_ip ckW.dst_port ckW.protocol 0).same_service
          (get_host_connections σW5 ckW.dst_ip) (0 - cdW.start_time)]) ∧
    ((get_recent_connections (complete_connection σW5 ckW 0) ckW.dst_ip
        ckW.dst_port ckW.protocol 0).same_host.length =
      (get_recent_connections σW5 ckW.dst_ip ckW.dst_port
        ckW.protocol 0).same_host.length + 1) ∧
    (get_host_connections (complete_connection σW5 ckW 0) ckW.dst_ip =
      get_host_connections σW5 ckW.dst_ip ++ [histEntryOf ckW cdW 0]) :=
  C5_query_before_insert σW5 ckW cdW 0 rfl (by decide) (by norm_num [σW5])

/-! ## C6 -/

/-- The packet of the eviction scenario: a TCP RST flow to host `8.8.8.8`
(the same key every time; each RST completes and frees the key at once, so
one key can produce arbitrarily many history entries). -/
def pktC6 : Packet :=
  { hasIP := true, src_ip := "9.9.9.9", dst_ip := "8.8.8.8",
    transport := some (.tcp 1234 80 0x04), length := 40,
    ip_flags := 0, ip_frag := 0 }

/-- The history summary the scenario flow completed at time n leaves behind. -/
def eC6 (n : Nat) : HistEntry :=
  { time := (n : ℚ), src_ip := "9.9.9.9", dst_ip := "8.8.8.8",
    src_port := some 1234, dst_port := some 80, protocol := "tcp",
    service := "http",
    flags := ⟨false, false, false, true, false, false⟩ }

/-- The collector after n completed scenario flows (each RST packet creates
and instantly completes one flow, at times 0, 1, 2, ...). -/
def σC6 (n : Nat) : CollectorState :=
  (List.range n).foldl (fun σ (m : Nat) => packet_callback σ pktC6 (m : ℚ))
    (initState 2)

/-- Unfolding one scenario step. -/
theorem σC6_succ (n : Nat) :
    σC6 (n + 1) = packet_callback (σC6 n) pktC6 (n : ℚ) := by
  unfold σC6
  rw [List.range_succ, List.foldl_append]
  rfl

/-- One scenario step: from an empty active table, the RST packet at time n
leaves the table empty again, pushes `eC6 n` into the bounded history, and
appends it to the per-host list of `8.8.8.8` (which is never pruned). -/
theorem stepC6 (σ : CollectorState) (n : Nat)
    (h : σ.active_connections = []) :
    (packet_callback σ pktC6 (n : ℚ)).active_connections = [] ∧
    (packet_callback σ pktC6 (n : ℚ)).connection_history =
      pushBounded 10000 σ.connection_history (eC6 n) ∧
    (packet_callback σ pktC6 (n : ℚ)).host_connections "8.8.8.8" =
      σ.host_connections "8.8.8.8" ++ [eC6 n] := by
  obtain ⟨act, comp, hist, hosts, w⟩ := σ
  simp only at h
  subst h
  exact ⟨rfl, rfl, rfl⟩

/-- Closed form of the scenario while the history is below capacity: after
n ≤ 10000 completions both the bounded history and the per-host list hold
exactly the n summaries, in completion order. -/
theorem histC6 (n : Nat) (hn : n ≤ 10000) :
    (σC6 n).active_connections = [] ∧
    (σC6 n).connection_history = (List.range n).map eC6 ∧
    (σC6 n).host_connections "8.8.8.8" = (List.range n).map eC6 := by
  induction n with
  | zero => exact ⟨rfl, rfl, rfl⟩
  | succ m ih =>
    obtain ⟨ha, hh, hg⟩ := ih (Nat.le_of_succ_le hn)
    obtain ⟨sa, sh, sg⟩ := stepC6 (σC6 m) m ha
    have hσ : σC6 (m + 1) = packet_callback (σC6 m) pktC6 (m : ℚ) := σC6_succ m
    have hlen : ((List.range m).map eC6).length < 10000 := by
      simpa using Nat.lt_of_succ_le hn
    refine ⟨by rw [hσ]; exact sa, ?_, ?_⟩
    · rw [hσ, sh, hh, pushBounded, if_pos hlen, List.range_succ,
        List.map_append]
      rfl
    · rw [hσ, sg, hg, List.range_succ, List.map_append]
      rfl

/-- C6 counterexample: after 10001 completions to host `8.8.8.8`, the first
summary has been evicted from the bounded main history (capacity 10000), yet
the per-host query still returns it — `host_connections` is an unbounded
`defaultdict(list)` that is never pruned, so the per-host mapping is not the
subsequence of the bounded history. -/
theorem C6_counterexample :
    eC6 0 ∈ (σC6 10001).host_connections "8.8.8.8" ∧
    eC6 0 ∉ (σC6 10001).connection_history := by
  obtain ⟨ha, hh, hg⟩ := histC6 10000 le_rfl
  obtain ⟨sa, sh, sg⟩ := stepC6 (σC6 10000) 10000 ha
  have hσ : σC6 10001 = packet_callback (σC6 10000) pktC6 ((10000 : Nat) : ℚ) := by
    rw [show (10001 : Nat) = 10000 + 1 by norm_num]
    exact σC6_succ 10000
  constructor
  · rw [hσ, sg, hg]
    exact List.mem_append_left _
      (List.mem_map.2 ⟨0, List.mem_range.2 (by norm_num), rfl⟩)
  · rw [hσ, sh, hh, pushBounded]
    have hlen : ¬ ((List.range 10000).map eC6).length < 10000 := by simp
    rw [if_neg hlen]
    intro hmem
    rcases List.mem_append.1 hmem with hmem | hmem
    · have htail : ((List.range 10000).map eC6).tail =
          ((List.range 9999).map Nat.succ).map eC6 := by
        rw [show (10000 : Nat) = 9999 + 1 by norm_num, List.range_succ_eq_map,
          List.map_cons, List.tail_cons]
      rw [htail] at hmem
      rcases List.mem_map.1 hmem with ⟨a, hain, hae⟩
      rcases List.mem_map.1 hain with ⟨b, _, rfl⟩
      have ht := congrArg HistEntry.time hae
      simp only [eC6] at ht
      exact absurd (Nat.cast_injective ht) (Nat.succ_ne_zero b)
    · have he : eC6 0 = eC6 10000 := by simpa using hmem
      have ht := congrArg HistEntry.time he
      simp only [eC6] at ht
      have : (0 : Nat) = 10000 := Nat.cast_injective ht
      norm_num at this

/-- C6 (amended): history entries leave the main history only by capacity
eviction, oldest first, at capacity 10000; the per-host mapping is
append-only and never pruned, so it tracks the filter of the main history
exactly as long as the history is below capacity, but can retain entries the
main history has evicted once capacity is reached. -/
theorem C6_amended_eviction (σ : CollectorState) (k : ConnectionKey)
    (cd : ConnState) (now : ℚ)
    (h : lookupConn σ.active_connections k = some cd) :
    (σ.connection_history.length < 10000 →
      (complete_connection σ k now).connection_history =
        σ.connection_history ++ [histEntryOf k cd now]) ∧
    (¬ σ.connection_history.length < 10000 →
      (complete_connection σ k now).connection_history =
        σ.connection_history.tail ++ [histEntryOf k cd now]) ∧
    ((complete_connection σ k now).host_connections k.dst_ip =
      σ.host_connections k.dst_ip ++ [histEntryOf k cd now]) ∧
    (∀ ip, ip ≠ k.dst_ip →
      (complete_connection σ k now).host_connections ip =
        σ.host_connections ip) ∧
    (σ.connection_history.length < 10000 →
      (∀ ip, σ.host_connections ip =
        σ.connection_history.filter (fun e => decide (e.dst_ip = ip))) →
      ∀ ip, (complete_connection σ k now).host_connections ip =
        (complete_connection σ k now).connection_history.filter
          (fun e => decide (e.dst_ip = ip))) := by
  rw [complete_connection_eq σ k now cd h]
  refine ⟨?_, ?_, ?_, ?_, ?_⟩
  · intro hc
    simp [pushBounded, if_pos hc]
  · intro hc
    simp [pushBounded, if_neg hc]
  · simp
  · intro ip hip
    simp [hip]
  · intro hc hinv ip
    simp only [pushBounded, if_pos hc, List.filter_append]
    by_cases hipk : ip = k.dst_ip
    · have hone : [histEntryOf k cd now].filter
          (fun e => decide (e.dst_ip = ip)) = [histEntryOf k cd now] := by
        simp [histEntryOf, hipk]
      rw [if_pos hipk, hone, hinv ip]
    · have hone : [histEntryOf k cd now].filter
          (fun e => decide (e.dst_ip = ip)) = [] := by
        simp only [List.filter, histEntryOf]
        have : ¬ (k.dst_ip = ip) := fun hh => hipk hh.symm
        simp [this]
      rw [if_neg hipk, hone, hinv ip, List.append_nil]

/-- C6 witness: the amended statement evaluated on the one-flow collector
with an under-capacity (empty) history. -/
theorem C6_witness :
    ((complete_connection σW5 ckW 0).connection_history =
      σW5.connection_history ++ [histEntryOf ckW cdW 0]) ∧
    ((complete_connection σW5 ckW 0).host_connections ckW.dst_ip =
      σW5.host_connections ckW.dst_ip ++ [histEntryOf ckW cdW 0]) := by
  obtain ⟨h1, _, h3, _, _⟩ := C6_amended_eviction σW5 ckW cdW 0 rfl
  exact ⟨h1 (by decide), h3⟩

/-- One-step lookup characterization of a non-TCP ingestion: the packet's own
key maps to its accumulated state, every other key is untouched. -/
theorem packet_callback_nontcp_lookup (σ : CollectorState) (pkt : Packet)
    (now : ℚ) (t : Transport) (hip : pkt.hasIP = true)
    (ht : pkt.transport = some t) (hnt : t.protocol ≠ "tcp")
    (k : ConnectionKey) :
    lookupConn (packet_callback σ pkt now).active_connections k =
      if k = connKeyOf pkt t then
        some (updateConnData
          ((lookupConn σ.active_connections k).getD (initConn pkt t now)) pkt t)
      else lookupConn σ.active_connections k := by
  rw [packet_callback_nontcp σ pkt now t hip ht hnt]
  by_cases hk2 : k = connKeyOf pkt t
  · rw [if_pos hk2]
    subst hk2
    exact lookupConn_insert_update σ.active_connections (connKeyOf pkt t)
      (initConn pkt t now) (fun cd => updateConnData cd pkt t)
  · rw [if_neg hk2]
    exact lookupConn_insert_update_ne σ.active_connections (connKeyOf pkt t)
      (initConn pkt t now) (fun cd => updateConnData cd pkt t) k hk2

/-- A TCP ingestion never touches the active entry of a different key. -/
theorem packet_callback_tcp_lookup_ne (σ : CollectorState) (pkt : Packet)
    (now : ℚ) (sp dp bits : Nat) (hip : pkt.hasIP = true)
    (ht : pkt.transport = some (.tcp sp dp bits)) (k : ConnectionKey)
    (hk : k ≠ connKeyOf pkt (.tcp sp dp bits)) :
    lookupConn (packet_callback σ pkt now).active_connections k =
      lookupConn σ.active_connections k := by
  rw [packet_callback_tcp σ pkt now sp dp bits hip ht]
  set t : Transport := .tcp sp dp bits with htdef
  set ck := connKeyOf pkt t with hckdef
  set cd₁ := updateConnData
    ((lookupConn σ.active_connections ck).getD (initConn pkt t now)) pkt t with hcd
  set act₂ := updateConn
    (if (lookupConn σ.active_connections ck).isNone then
      σ.active_connections ++ [(ck, initConn pkt t now)]
    else σ.active_connections) ck (fun cd => updateConnData cd pkt t) with hact
  have hpres : lookupConn act₂ k = lookupConn σ.active_connections k := by
    rw [hact]
    exact lookupConn_insert_update_ne _ _ _ _ _ hk
  by_cases hcond : cd₁.flags.f = true ∨ cd₁.flags.r = true
  · rw [if_pos hcond]
    have hl2 : lookupConn act₂ ck = some cd₁ := by
      rw [hact, hcd]
      exact lookupConn_insert_update _ _ _ _
    rw [complete_connection_eq { σ with active_connections := act₂ } ck now
      cd₁ hl2]
    simp only [lookupConn_removeConn, if_neg hk]
    exact hpres
  · rw [if_neg hcond]
    exact hpres

/-! ## C8 -/

/-- C8: a UDP or ICMP flow is never completed by packet ingestion — ingesting
any packet keeps every non-TCP key in the active table (part 1), and in
particular a UDP/ICMP packet's own flow is still active right after its own
ingestion (part 2); such flows are emitted by the Reaper: the idle-timeout
sweep removes every stale flow from the active table through the completion
path (part 3). -/
theorem C8_nontcp_only_reaper :
    (∀ (σ : CollectorState) (pkt : Packet) (now : ℚ) (k : ConnectionKey),
      k.protocol ≠ "tcp" →
      (lookupConn σ.active_connections k).isSome = true →
      (lookupConn (packet_callback σ pkt now).active_connections k).isSome =
        true) ∧
    (∀ (σ : CollectorState) (pkt : Packet) (now : ℚ) (t : Transport),
      pkt.hasIP = true → pkt.transport = some t → t.protocol ≠ "tcp" →
      (lookupConn (packet_callback σ pkt now).active_connections
        (connKeyOf pkt t)).isSome = true) ∧
    (∀ (σ : CollectorState) (k : ConnectionKey) (cd : ConnState) (now : ℚ),
      lookupConn σ.active_connections k = some cd →
      now - cd.start_time > 60 →
      lookupConn (cleanup_connections σ now).active_connections k = none) := by
  refine ⟨?_, ?_, ?_⟩
  · intro σ pkt now k hk h
    cases hip : pkt.hasIP with
    | false =>
      rw [packet_callback_noip σ pkt now hip]
      exact h
    | true =>
      cases htr : pkt.transport with
      | none =>
        rw [packet_callback_notrans σ pkt now hip htr]
        exact h
      | some t =>
        cases t with
        | tcp sp dp bits =>
          have hkne : k ≠ connKeyOf pkt (.tcp sp dp bits) := by
            intro he
            exact hk (by rw [he]; rfl)
          rw [packet_callback_tcp_lookup_ne σ pkt now sp dp bits hip htr k hkne]
          exact h
        | udp sp dp =>
          rw [packet_callback_nontcp_lookup σ pkt now (.udp sp dp) hip htr
            (by simp [Transport.protocol]) k]
          split
          · rfl
          · exact h
        | icmp =>
          rw [packet_callback_nontcp_lookup σ pkt now .icmp hip htr
            (by simp [Transport.protocol]) k]
          split
          · rfl
          · exact h
  · intro σ pkt now t hip ht hnt
    rw [packet_callback_nontcp_lookup σ pkt now t hip ht hnt (connKeyOf pkt t),
      if_pos rfl]
    rfl
  · intro σ k cd now h hstale
    unfold cleanup_connections
    apply foldl_complete_none
    left
    exact List.mem_map.2 ⟨(k, cd), List.mem_filter.2
      ⟨lookupConn_mem _ _ _ h, by simpa using hstale⟩, rfl⟩

/-- A concrete UDP flow key (port 53). -/
def kU : ConnectionKey := ⟨"1.1.1.1", "2.2.2.2", some 4444, some 53, "udp"⟩

/-- A concrete UDP connection state started at time 0. -/
def cdU : ConnState :=
  ⟨0, 80, 0, 1, 0, FlagSet.empty, 0, 0, 0, "domain"⟩

/-- A concrete collector holding the UDP flow. -/
def σU : CollectorState :=
  { active_connections := [(kU, cdU)]
    completed_connections := []
    connection_history := []
    host_connections := fun _ => []
    window_size := 2 }

/-- C8 witness: a concrete UDP flow survives a TCP FIN ingestion, a UDP
packet's own flow is active right after ingestion, and the Reaper removes
the UDP flow at time 61. -/
theorem C8_witness :
    ((lookupConn (packet_callback σU pktFin 0).active_connections kU).isSome =
      true) ∧
    ((lookupConn (packet_callback (initState 2) pktUdp 0).active_connections
      (connKeyOf pktUdp (.udp 4444 53))).isSome = true) ∧
    (lookupConn (cleanup_connections σU 61).active_connections kU = none) := by
  obtain ⟨h1, h2, h3⟩ := C8_nontcp_only_reaper
  exact ⟨h1 σU pktFin 0 kU (by decide) rfl,
    h2 (initState 2) pktUdp 0 (.udp 4444 53) rfl rfl (by decide),
    h3 σU kU cdU 61 rfl (by norm_num [cdU])⟩

/-! ## C9 -/

/-- C9: feature computation is deterministic and pure given its inputs. Two
collector states that agree on the flow's own state, the history snapshot,
the per-host snapshot for the flow's destination, and the window size yield
identical appended records when completing the flow — no other component
(other active flows, previously emitted records, other hosts' indices) can
influence any field of the record, and in particular two runs on the same
inputs produce equal records. -/
theorem C9_feature_purity (σ₁ σ₂ : CollectorState) (k : ConnectionKey)
    (now : ℚ)
    (hc : lookupConn σ₁.active_connections k =
      lookupConn σ₂.active_connections k)
    (hh : σ₁.connection_history = σ₂.connection_history)
    (hg : σ₁.host_connections k.dst_ip = σ₂.host_connections k.dst_ip)
    (hw : σ₁.window_size = σ₂.window_size) :
    (complete_connection σ₁ k now).completed_connections.drop
        σ₁.completed_connections.length =
      (complete_connection σ₂ k now).completed_connections.drop
        σ₂.completed_connections.length := by
  have hq : get_recent_connections σ₁ k.dst_ip k.dst_port k.protocol now =
      get_recent_connections σ₂ k.dst_ip k.dst_port k.protocol now := by
    simp only [get_recent_connections, hh, hw]
  have hhost : get_host_connections σ₁ k.dst_ip =
      get_host_connections σ₂ k.dst_ip := hg
  cases h1 : lookupConn σ₁.active_connections k with
  | none =>
    have h2 : lookupConn σ₂.active_connections k = none := by
      rw [← hc]
      exact h1
    rw [complete_connection_skip σ₁ k now h1,
      complete_connection_skip σ₂ k now h2, List.drop_length,
      List.drop_length]
  | some cd =>
    have h2 : lookupConn σ₂.active_connections k = some cd := by
      rw [← hc]
      exact h1
    rw [complete_connection_eq σ₁ k now cd h1,
      complete_connection_eq σ₂ k now cd h2]
    show (σ₁.completed_connections ++ _).drop σ₁.completed_connections.length =
      (σ₂.completed_connections ++ _).drop σ₂.completed_connections.length
    rw [List.drop_left, List.drop_left, hq, hhost]

/-- A collector differing from `σW5` only in already-emitted records. -/
def σW9 : CollectorState :=
  { active_connections := [(ckW, cdW)]
    completed_connections := [buildRecord ckW cdW [] [] [] 0]
    connection_history := []
    host_connections := fun _ => []
    window_size := 2 }

/-- C9 witness: completing the same flow in two concrete states that differ
only in the already-emitted output yields the same new record. -/
theorem C9_witness :
    (complete_connection σW5 ckW 0).completed_connections.drop
        σW5.completed_connections.length =
      (complete_connection σW9 ckW 0).completed_connections.drop
        σW9.completed_connections.length :=
  C9_feature_purity σW5 σW9 ckW 0 rfl rfl rfl rfl

/-! ## C10 -/

/-- Folding completions preserves the dst_bytes-zero invariant. -/
theorem foldl_complete_preserves_dstzero (ks : List ConnectionKey)
    (σ : CollectorState) (now : ℚ)
    (ha : ∀ kv ∈ σ.active_connections,
      (kv : ConnectionKey × ConnState).2.dst_bytes = 0)
    (hr : ∀ r ∈ σ.completed_connections, (r : FeatureRecord).dst_bytes = 0) :
    (∀ kv ∈ (ks.foldl (fun σ' k' => complete_connection σ' k' now)
        σ).active_connections,
      (kv : ConnectionKey × ConnState).2.dst_bytes = 0) ∧
    (∀ r ∈ (ks.foldl (fun σ' k' => complete_connection σ' k' now)
        σ).completed_connections, (r : FeatureRecord).dst_bytes = 0) := by
  induction ks generalizing σ with
  | nil => exact ⟨ha, hr⟩
  | cons a rest ih =>
    rw [List.foldl_cons]
    obtain ⟨ha', hr'⟩ := complete_preserves_dstzero σ a now ha hr
    exact ih _ ha' hr'

/-- C10: `dst_bytes` is zero everywhere — it starts at 0 when a flow is
created, no ingestion path ever increments it (only `src_bytes` accumulates,
keyed by the packet's own direction), and every record copies it verbatim —
so in every produced FeatureRecord `dst_bytes = 0`. Stated as: the invariant
holds initially and is preserved by packet ingestion and by the Reaper. -/
theorem C10_dst_bytes_always_zero :
    (∀ w : ℚ,
      (∀ kv ∈ (initState w).active_connections,
        (kv : ConnectionKey × ConnState).2.dst_bytes = 0) ∧
      (∀ r ∈ (initState w).completed_connections,
        (r : FeatureRecord).dst_bytes = 0)) ∧
    (∀ (σ : CollectorState) (pkt : Packet) (now : ℚ),
      (∀ kv ∈ σ.active_connections,
        (kv : ConnectionKey × ConnState).2.dst_bytes = 0) →
      (∀ r ∈ σ.completed_connections, (r : FeatureRecord).dst_bytes = 0) →
      (∀ kv ∈ (packet_callback σ pkt now).active_connections,
        (kv : ConnectionKey × ConnState).2.dst_bytes = 0) ∧
      (∀ r ∈ (packet_callback σ pkt now).completed_connections,
        (r : FeatureRecord).dst_bytes = 0)) ∧
    (∀ (σ : CollectorState) (now : ℚ),
      (∀ kv ∈ σ.active_connections,
        (kv : ConnectionKey × ConnState).2.dst_bytes = 0) →
      (∀ r ∈ σ.completed_connections, (r : FeatureRecord).dst_bytes = 0) →
      (∀ kv ∈ (cleanup_connections σ now).active_connections,
        (kv : ConnectionKey × ConnState).2.dst_bytes = 0) ∧
      (∀ r ∈ (cleanup_connections σ now).completed_connections,
        (r : FeatureRecord).dst_bytes = 0)) := by
  refine ⟨?_, ?_, ?_⟩
  · intro w
    constructor
    · intro kv hkv
      simp [initState] at hkv
    · intro r hrr
      simp [initState] at hrr
  · intro σ pkt now ha hr
    cases hip : pkt.hasIP with
    | false =>
      rw [packet_callback_noip σ pkt now hip]
      exact ⟨ha, hr⟩
    | true =>
      cases htr : pkt.transport with
      | none =>
        rw [packet_callback_notrans σ pkt now hip htr]
        exact ⟨ha, hr⟩
      | some t =>
        cases t with
        | tcp sp dp bits =>
          rw [packet_callback_tcp σ pkt now sp dp bits hip htr]
          set t' : Transport := .tcp sp dp bits with ht'
          set ck := connKeyOf pkt t' with hck
          set cd₁ := updateConnData
            ((lookupConn σ.active_connections ck).getD (initConn pkt t' now))
            pkt t' with hcd
          set act₂ := updateConn
            (if (lookupConn σ.active_connections ck).isNone then
              σ.active_connections ++ [(ck, initConn pkt t' now)]
            else σ.active_connections) ck
            (fun cd => updateConnData cd pkt t') with hact
          have ha₂ : ∀ kv ∈ act₂,
              (kv : ConnectionKey × ConnState).2.dst_bytes = 0 := by
            rw [hact]
            exact active_dstzero_step σ.active_connections ck
              (initConn pkt t' now) pkt t' ha rfl
          by_cases hcond : cd₁.flags.f = true ∨ cd₁.flags.r = true
          · rw [if_pos hcond]
            exact complete_preserves_dstzero
              { σ with active_connections := act₂ } ck now ha₂ hr
          · rw [if_neg hcond]
            exact ⟨ha₂, hr⟩
        | udp sp dp =>
          rw [packet_callback_nontcp σ pkt now (.udp sp dp) hip htr
            (by simp [Transport.protocol])]
          exact ⟨active_dstzero_step σ.active_connections
            (connKeyOf pkt (.udp sp dp)) (initConn pkt (.udp sp dp) now)
            pkt (.udp sp dp) ha rfl, hr⟩
        | icmp =>
          rw [packet_callback_nontcp σ pkt now .icmp hip htr
            (by simp [Transport.protocol])]
          exact ⟨active_dstzero_step σ.active_connections
            (connKeyOf pkt .icmp) (initConn pkt .icmp now)
            pkt .icmp ha rfl, hr⟩
  · intro σ now ha hr
    unfold cleanup_connections
    exact foldl_complete_preserves_dstzero _ σ now ha hr

/-- C10 witness: the accumulated state of a freshly ingested UDP packet has
`dst_bytes = 0`, obtained from the invariant theorem. -/
theorem C10_witness :
    (updateConnData (initConn pktUdp (.udp 4444 53) 0) pktUdp
      (.udp 4444 53)).dst_bytes = 0 := by
  obtain ⟨_, h2, _⟩ := C10_dst_bytes_always_zero
  have h := (h2 (initState 2) pktUdp 0
    (by intro kv hkv; simp [initState] at hkv)
    (by intro r hrr; simp [initState] at hrr)).1
  refine h (connKeyOf pktUdp (.udp 4444 53),
    updateConnData (initConn pktUdp (.udp 4444 53) 0) pktUdp
      (.udp 4444 53)) ?_
  rw [show (packet_callback (initState 2) pktUdp 0).active_connections =
    [(connKeyOf pktUdp (.udp 4444 53),
      updateConnData (initConn pktUdp (.udp 4444 53) 0) pktUdp
        (.udp 4444 53))] from rfl]
  exact List.mem_singleton.2 rfl
